import Mathlib

/-!
Verification development for the kernel thread / scheduler core of the yuzu
emulator (file `core/hle/kernel/thread.cpp`).  The C++ source is shallowly
embedded: the kernel state (threads, the four per-core schedulers, the
per-process TLS slot bitmap, wait-object waiter lists) is an explicit record,
every operation of `thread.cpp` is a pure Lean function on that record, and
calls into external collaborators (core timing, handle table, scheduler
bookkeeping) are additionally recorded in an event trace so that statements
about which one-shot effects run, and in which order, can be made precisely.
Fatal assertions (the always-on `ASSERT` / `ASSERT_MSG` macros) are modelled
by returning `Except.error`; the debug-only `DEBUG_ASSERT_MSG` macro is
controlled by an explicit `dbg : Bool` parameter (the `_DEBUG` build flag):
it aborts only when `dbg = true`, matching its compiled-out release
semantics.
-/

namespace Kernel

/-- Thread lifecycle states, from `ThreadStatus` in the kernel thread header. -/
inductive ThreadStatus where
  | Running
  | Ready
  | WaitHLEEvent
  | WaitSleep
  | WaitIPC
  | WaitSynchAny
  | WaitSynchAll
  | WaitMutex
  | WaitArb
  | Dormant
  | Dead
deriving DecidableEq, Repr

/-- Reason passed to a wakeup callback, from `ThreadWakeupReason`. -/
inductive WakeupReason where
  | Signal
  | Timeout
deriving DecidableEq, Repr

/-- Modelled from the spec: kernel result codes (`errors.h` is not part of the
given sources).  Error reporting uses a result-code channel; the exact numeric
values are irrelevant to the claims, so the codes named by `thread.cpp` are
distinct constructors and `ResultCode(-1)` keeps its raw value. -/
inductive ResultCode where
  | ERR_OUT_OF_RANGE
  | ERR_OUT_OF_RANGE_KERNEL
  | raw (code : Int)
deriving DecidableEq, Repr

/-- Trace events recording every call from `thread.cpp` into its external
collaborators (core timing, the wakeup handle table, per-core schedulers,
wait objects, the TLS bitmap, CPU cores).  A function of the embedding
returns the updated kernel state together with the list of events it
performed, in program order. -/
inductive Event where
  | coreTimingUnschedule (handle : Nat)
  | closeHandle (handle : Nat)
  | schedUnscheduleThread (core : Int) (tid : Nat) (prio : Nat)
  | schedScheduleThread (core : Int) (tid : Nat) (prio : Nat)
  | schedRemoveThread (core : Int) (tid : Nat)
  | schedAddThread (core : Int) (tid : Nat) (prio : Nat)
  | schedSetPriority (core : Int) (tid : Nat) (prio : Nat)
  | wakeupAllWaitingThreads (tid : Nat)
  | removeWaitingThread (obj : Nat) (tid : Nat)
  | tlsSlotReset (page : Nat) (slot : Nat)
  | invokeWakeupCallback (reason : WakeupReason) (tid : Nat)
  | staleWakeupCallback (handle : Nat)
  | prepareReschedule (core : Int)
deriving DecidableEq, Repr

/-- One guest thread, with the fields of the `Thread` class that
`thread.cpp` reads or writes.  `sched` mirrors the `scheduler` member (the
index of the per-core scheduler the thread is currently registered with),
kept separate from `processor_id` because the source updates them at
different points.  `wakeup_callback` keeps the presence of the callback and
the boolean verdict it returns when invoked with a `Timeout` reason. -/
structure Thread where
  status : ThreadStatus
  nominal_priority : Nat
  current_priority : Nat
  processor_id : Int
  ideal_core : Int
  affinity_mask : Nat
  wait_objects : List Nat
  wait_mutex_threads : List Nat
  lock_owner : Option Nat
  wakeup_callback : Option Bool
  mutex_wait_address : Nat
  condvar_wait_address : Nat
  wait_handle : Nat
  arb_wait_address : Nat
  tls_address : Nat
  callback_handle : Nat
  sched : Int
deriving DecidableEq, Repr

/-- Modelled from the spec: one per-core scheduler (`scheduler.cpp` is not
part of the given sources).  It owns the tracking list of all threads
assigned to the core, the priority-ordered ready queue (kept here as a list
of thread id and priority pairs), and the pointer to the thread currently
running on the core. -/
structure Sched where
  current_thread : Option Nat
  thread_list : List Nat
  ready_queue : List (Nat × Nat)
deriving DecidableEq, Repr

instance : Inhabited Sched := ⟨⟨none, [], []⟩⟩

/-- The kernel state: the thread pool (an association list keyed by thread
id, first match wins), the four per-core schedulers (`ASSERT(id < 4)` in the
source fixes the core count), the TLS slot bitmap of the current process
(one list of eight booleans per allocated page), the waiter lists of the
wait objects, the set of valid virtual addresses of the owner process, and
the next fresh thread id. -/
structure KState where
  threads : List (Nat × Thread)
  sched0 : Sched
  sched1 : Sched
  sched2 : Sched
  sched3 : Sched
  tls_slots : List (List Bool)
  objects : List (Nat × List Nat)
  valid_addrs : List Nat
  next_thread_id : Nat
deriving DecidableEq, Repr

/-- Number of emulated CPU cores (`Core::NUM_CPU_CORES`); the source asserts
the chosen core index is below 4. -/
def NUM_CPU_CORES : Nat := 4

/-- Modelled from the spec: lowest (numerically largest) allowed thread
priority, from the kernel thread header which is not part of the given
sources.  Only its role as the upper bound of the valid priority range
matters to the claims. -/
def THREADPRIO_LOWEST : Nat := 63

/-- Modelled from the spec: highest (numerically smallest) allowed thread
priority. -/
def THREADPRIO_HIGHEST : Nat := 0

/-- Modelled from the spec: largest valid processor id, from the kernel
thread header which is not part of the given sources. -/
def THREADPROCESSORID_MAX : Int := 3

/-- Modelled from the spec: base virtual address of the TLS area
(`Memory::TLS_AREA_VADDR`, from the memory header which is not part of the
given sources). -/
def TLS_AREA_VADDR : Nat := 0x1ee7e8000

/-- Modelled from the spec: page size (`Memory::PAGE_SIZE`). -/
def PAGE_SIZE : Nat := 0x1000

/-- Modelled from the spec: size of one TLS slot (`Memory::TLS_ENTRY_SIZE`);
eight slots fit in a page, matching the `std::bitset<8>` per page. -/
def TLS_ENTRY_SIZE : Nat := 0x200

/-- First-match lookup in an association list of threads. -/
def lookupTh (l : List (Nat × Thread)) (k : Nat) : Option Thread :=
  match l with
  | [] => none
  | p :: rest => if p.1 = k then some p.2 else lookupTh rest k

/-- Apply `f` to the thread stored under key `k` (all matching entries, so
lookup of the first match behaves like updating the live object). -/
def updTh (l : List (Nat × Thread)) (k : Nat) (f : Thread → Thread) :
    List (Nat × Thread) :=
  l.map (fun p => if p.1 = k then (p.1, f p.2) else p)

/-- Read a thread from the pool. -/
def getThread (s : KState) (k : Nat) : Option Thread :=
  lookupTh s.threads k

/-- Update a thread in the pool. -/
def modifyThread (s : KState) (k : Nat) (f : Thread → Thread) : KState :=
  { s with threads := updTh s.threads k f }

/-- The scheduler of core `i` (`Core::System::GetInstance().Scheduler(i)`);
out-of-range indices yield an empty scheduler, an artifact never exercised
by in-range executions. -/
def getSched (s : KState) (i : Int) : Sched :=
  if i = 0 then s.sched0
  else if i = 1 then s.sched1
  else if i = 2 then s.sched2
  else if i = 3 then s.sched3
  else default

/-- Replace the scheduler of core `i`; no-op when out of range. -/
def setSched (s : KState) (i : Int) (sc : Sched) : KState :=
  if i = 0 then { s with sched0 := sc }
  else if i = 1 then { s with sched1 := sc }
  else if i = 2 then { s with sched2 := sc }
  else if i = 3 then { s with sched3 := sc }
  else s

/-- Modelled from the spec: `Scheduler::AddThread` appends the thread to the
tracking list of all threads assigned to this core. -/
def schedAddThread (s : KState) (i : Int) (tid : Nat) : KState :=
  setSched s i { getSched s i with thread_list := (getSched s i).thread_list ++ [tid] }

/-- Modelled from the spec: `Scheduler::RemoveThread` removes the thread
from the tracking list. -/
def schedRemoveThread (s : KState) (i : Int) (tid : Nat) : KState :=
  setSched s i { getSched s i with
    thread_list := (getSched s i).thread_list.filter (fun x => x ≠ tid) }

/-- Modelled from the spec: `Scheduler::ScheduleThread` inserts the thread
into the ready queue at the given priority. -/
def schedScheduleThread (s : KState) (i : Int) (tid : Nat) (prio : Nat) : KState :=
  setSched s i { getSched s i with
    ready_queue := (getSched s i).ready_queue ++ [(tid, prio)] }

/-- Modelled from the spec: `Scheduler::UnscheduleThread` removes the thread
from the ready queue at the given priority. -/
def schedUnscheduleThread (s : KState) (i : Int) (tid : Nat) (prio : Nat) : KState :=
  setSched s i { getSched s i with
    ready_queue := (getSched s i).ready_queue.filter (fun x => x ≠ (tid, prio)) }

/-- Modelled from the spec: `Scheduler::SetThreadPriority` moves the thread
to the new priority inside the ready queue. -/
def schedSetThreadPriority (s : KState) (i : Int) (tid : Nat) (prio : Nat) : KState :=
  setSched s i { getSched s i with
    ready_queue := (getSched s i).ready_queue.map
      (fun x => if x.1 = tid then (tid, prio) else x) }

/-- The running thread of core `i` (`Scheduler(i)->GetCurrentThread()`). -/
def schedCurrent (s : KState) (i : Int) : Option Nat :=
  (getSched s i).current_thread

/-- Remove a thread from the waiter list of one wait object
(`wait_object->RemoveWaitingThread(thread)`). -/
def objRemoveWaiting (s : KState) (obj : Nat) (tid : Nat) : KState :=
  let f := fun (p : Nat × List Nat) =>
    if p.1 = obj then (p.1, p.2.filter (fun x => x ≠ tid)) else p
  { s with objects := s.objects.map f }

/-- Set one boolean in a list, leaving the list unchanged when out of range. -/
def listSet {α : Type} (l : List α) (i : Nat) (x : α) : List α :=
  match l, i with
  | [], _ => []
  | _ :: rest, 0 => x :: rest
  | y :: rest, n + 1 => y :: listSet rest n x

/-- Clear bit `slot` of page `page` in a TLS bitmap. -/
def tlsResetRows (rows : List (List Bool)) (page slot : Nat) : List (List Bool) :=
  match rows.get? page with
  | none => rows
  | some row => listSet rows page (listSet row slot false)

/-- Clear bit `slot` of TLS page `page` (`tls_slots[tls_page].reset(tls_slot)`). -/
def tlsReset (s : KState) (page slot : Nat) : KState :=
  { s with tls_slots := tlsResetRows s.tls_slots page slot }

/-- The loop body of `Thread::UpdatePriority`: the smallest nominal priority
among the threads waiting on a mutex this thread owns, seeded with the
nominal priority of the thread itself. -/
def computeNewPriority (s : KState) (t : Thread) : Nat :=
  t.wait_mutex_threads.foldl
    (fun acc wid =>
      match getThread s wid with
      | some w => if w.nominal_priority < acc then w.nominal_priority else acc
      | none => acc)
    t.nominal_priority

/-- `Thread::UpdatePriority`: recompute the effective priority from the
nominal priority and the nominal priorities of all mutex waiters; stop if
unchanged, otherwise push the new priority to the scheduler, store it, and
recurse into the lock owner.  The C++ recursion is unbounded; `fuel` bounds
it here, and every scenario below supplies enough fuel for its chain. -/
def updatePriority : Nat → KState → Nat → KState × List Event
  | 0, s, _ => (s, [])
  | fuel + 1, s, tid =>
    match getThread s tid with
    | none => (s, [])
    | some t =>
      let newp := computeNewPriority s t
      if newp = t.current_priority then (s, [])
      else
        let s1 := schedSetThreadPriority s t.sched tid newp
        let s2 := modifyThread s1 tid (fun th => { th with current_priority := newp })
        match t.lock_owner with
        | none => (s2, [Event.schedSetPriority t.sched tid newp])
        | some owner =>
          let r := updatePriority fuel s2 owner
          (r.1, Event.schedSetPriority t.sched tid newp :: r.2)

/-- `Thread::SetPriority`: assert the priority is in range, set the nominal
priority, and recompute the effective priority. -/
def setPriority (fuel : Nat) (s : KState) (tid : Nat) (priority : Nat) :
    Except Unit (KState × List Event) :=
  if priority ≤ THREADPRIO_LOWEST then
    match getThread s tid with
    | none => Except.ok (s, [])
    | some _ =>
      let s1 := modifyThread s tid (fun th => { th with nominal_priority := priority })
      Except.ok (updatePriority fuel s1 tid)
  else Except.error ()

/-- `Thread::BoostPriority`: push the priority straight to the scheduler and
store it as the current priority, with no nominal-priority bookkeeping. -/
def boostPriority (s : KState) (tid : Nat) (priority : Nat) : KState × List Event :=
  match getThread s tid with
  | none => (s, [])
  | some t =>
    let s1 := schedSetThreadPriority s t.sched tid priority
    let s2 := modifyThread s1 tid (fun th => { th with current_priority := priority })
    (s2, [Event.schedSetPriority t.sched tid priority])

/-- `Thread::AddMutexWaiter` on owner `this`: an idempotent re-registration
when the waiter already names this owner (asserting it is indeed listed);
otherwise assert the waiter has no lock owner and is not listed, record the
back reference, append it, and update the priority of the owner. -/
def addMutexWaiter (fuel : Nat) (s : KState) (this : Nat) (tid : Nat) :
    Except Unit (KState × List Event) :=
  match getThread s this, getThread s tid with
  | some owner, some waiter =>
    if waiter.lock_owner = some this then
      if tid ∈ owner.wait_mutex_threads then Except.ok (s, [])
      else Except.error ()
    else
      if waiter.lock_owner ≠ none then Except.error ()
      else if tid ∈ owner.wait_mutex_threads then Except.error ()
      else
        let s1 := modifyThread s tid (fun th => { th with lock_owner := some this })
        let s2 := modifyThread s1 this
          (fun th => { th with wait_mutex_threads := th.wait_mutex_threads ++ [tid] })
        Except.ok (updatePriority fuel s2 this)
  | _, _ => Except.ok (s, [])

/-- `Thread::RemoveMutexWaiter` on owner `this`: assert the waiter names
this owner and is listed, erase it, clear the back reference, and update the
priority of the owner. -/
def removeMutexWaiter (fuel : Nat) (s : KState) (this : Nat) (tid : Nat) :
    Except Unit (KState × List Event) :=
  match getThread s this, getThread s tid with
  | some owner, some waiter =>
    if waiter.lock_owner = some this then
      if tid ∈ owner.wait_mutex_threads then
        let s1 := modifyThread s this
          (fun th => { th with
            wait_mutex_threads := th.wait_mutex_threads.filter (fun x => x ≠ tid) })
        let s2 := modifyThread s1 tid (fun th => { th with lock_owner := none })
        Except.ok (updatePriority fuel s2 this)
      else Except.error ()
    else Except.error ()
  | _, _ => Except.ok (s, [])

/-- `GetNextProcessorId(mask)`: the first core index, in increasing order,
whose bit is set in the affinity mask and whose scheduler has no running
thread. -/
def getNextProcessorId (s : KState) (mask : Nat) : Option Int :=
  (List.range NUM_CPU_CORES).findSome?
    (fun i => if mask.testBit i ∧ schedCurrent s (i : Int) = none
              then some (i : Int) else none)

/-- The core-placement block of `Thread::ResumeFromWait` (choose the new
core from the free-core scan, the previous-processor fallback, and the
ideal-core override; assert it is below 4; then move the scheduler
bookkeeping, update `processor_id`, reschedule within the ready queues,
retarget the `scheduler` member, and request a reschedule). -/
def corePlacementResume (s : KState) (tid : Nat) : Except Unit (KState × List Event) :=
  match getThread s tid with
  | none => Except.ok (s, [])
  | some t =>
    let cand := getNextProcessorId s t.affinity_mask
    let cand1 := match cand with | none => t.processor_id | some i => i
    let new_processor_id :=
      if t.ideal_core ≠ -1 ∧ schedCurrent s t.ideal_core = none
      then t.ideal_core else cand1
    if new_processor_id < 4 then
      let moved :=
        if new_processor_id ≠ t.processor_id then
          (schedAddThread (schedRemoveThread s t.sched tid) new_processor_id tid,
           [Event.schedRemoveThread t.sched tid,
            Event.schedAddThread new_processor_id tid t.current_priority])
        else (s, [])
      let s2 := modifyThread moved.1 tid (fun th => { th with processor_id := new_processor_id })
      let s3 := schedUnscheduleThread s2 t.sched tid t.current_priority
      let s4 := schedScheduleThread s3 new_processor_id tid t.current_priority
      let s5 := modifyThread s4 tid (fun th => { th with sched := new_processor_id })
      Except.ok (s5, moved.2 ++
        [Event.schedUnscheduleThread t.sched tid t.current_priority,
         Event.schedScheduleThread new_processor_id tid t.current_priority,
         Event.prepareReschedule new_processor_id])
    else Except.error ()

/-- The core-placement block of `Thread::ChangeCore`, a separate translation
of the duplicated source lines (the two copies are compared in the claim
about their equivalence). -/
def corePlacementChangeCore (s : KState) (tid : Nat) : Except Unit (KState × List Event) :=
  match getThread s tid with
  | none => Except.ok (s, [])
  | some t =>
    let cand := getNextProcessorId s t.affinity_mask
    let cand1 := match cand with | none => t.processor_id | some i => i
    let new_processor_id :=
      if t.ideal_core ≠ -1 ∧ schedCurrent s t.ideal_core = none
      then t.ideal_core else cand1
    if new_processor_id < 4 then
      let moved :=
        if new_processor_id ≠ t.processor_id then
          (schedAddThread (schedRemoveThread s t.sched tid) new_processor_id tid,
           [Event.schedRemoveThread t.sched tid,
            Event.schedAddThread new_processor_id tid t.current_priority])
        else (s, [])
      let s2 := modifyThread moved.1 tid (fun th => { th with processor_id := new_processor_id })
      let s3 := schedUnscheduleThread s2 t.sched tid t.current_priority
      let s4 := schedScheduleThread s3 new_processor_id tid t.current_priority
      let s5 := modifyThread s4 tid (fun th => { th with sched := new_processor_id })
      Except.ok (s5, moved.2 ++
        [Event.schedUnscheduleThread t.sched tid t.current_priority,
         Event.schedScheduleThread new_processor_id tid t.current_priority,
         Event.prepareReschedule new_processor_id])
    else Except.error ()

/-- `Thread::ResumeFromWait`: assert no wait objects remain; a duplicate
wakeup of a `Ready` thread is a no-op (asserting its callback was already
cleared); resuming a `Running` or `Dead` thread is rejected only by a
debug-only assertion and otherwise returns without effect; every wait state
and `Dormant` (which has no case in the C++ switch and falls through to the
common path) clears the callback, becomes `Ready`, and runs placement. -/
def resumeFromWait (dbg : Bool) (s : KState) (tid : Nat) :
    Except Unit (KState × List Event) :=
  match getThread s tid with
  | none => Except.ok (s, [])
  | some t =>
    if t.wait_objects = [] then
      match t.status with
      | ThreadStatus.WaitSynchAll | ThreadStatus.WaitSynchAny
      | ThreadStatus.WaitHLEEvent | ThreadStatus.WaitSleep
      | ThreadStatus.WaitIPC | ThreadStatus.WaitMutex
      | ThreadStatus.WaitArb | ThreadStatus.Dormant =>
        let s1 := modifyThread s tid
          (fun th => { th with wakeup_callback := none, status := ThreadStatus.Ready })
        corePlacementResume s1 tid
      | ThreadStatus.Ready =>
        if t.wakeup_callback = none then Except.ok (s, []) else Except.error ()
      | ThreadStatus.Running =>
        if dbg then Except.error () else Except.ok (s, [])
      | ThreadStatus.Dead =>
        if dbg then Except.error () else Except.ok (s, [])
    else Except.error ()

/-- Reinterpret an unsigned 32-bit value as signed, for the `u32 core`
parameter of `ChangeCore` stored into the signed `ideal_core`. -/
def s32ofU32 (x : Nat) : Int :=
  if x < 2 ^ 31 then (x : Int) else (x : Int) - 2 ^ 32

/-- `Thread::ChangeCore`: store the new ideal core and affinity mask; if the
thread is not `Ready` stop there, otherwise run the same placement block as
a resuming wait. -/
def changeCore (s : KState) (tid : Nat) (core : Nat) (mask : Nat) :
    Except Unit (KState × List Event) :=
  match getThread s tid with
  | none => Except.ok (s, [])
  | some t =>
    let s1 := modifyThread s tid
      (fun th => { th with ideal_core := s32ofU32 core, affinity_mask := mask })
    if t.status ≠ ThreadStatus.Ready then Except.ok (s1, [])
    else corePlacementChangeCore s1 tid

/-- `Thread::Stop`: cancel the pending wakeup event and close its handle;
unschedule from the ready queue only when the status is still `Ready`; mark
`Dead`; wake joiners; deregister from every wait object; and clear the TLS
slot computed from `tls_address`.  Nothing here is guarded by a Dead-state
check, so a second call re-runs everything except the `Ready`-guarded
unscheduling. -/
def stop (s : KState) (tid : Nat) : KState × List Event :=
  match getThread s tid with
  | none => (s, [])
  | some t =>
    let evs0 := [Event.coreTimingUnschedule t.callback_handle,
                 Event.closeHandle t.callback_handle]
    let s1 := modifyThread s tid (fun th => { th with callback_handle := 0 })
    let unsched :=
      if t.status = ThreadStatus.Ready then
        (schedUnscheduleThread s1 t.sched tid t.current_priority,
         [Event.schedUnscheduleThread t.sched tid t.current_priority])
      else (s1, [])
    let s3 := modifyThread unsched.1 tid (fun th => { th with status := ThreadStatus.Dead })
    let s4 := t.wait_objects.foldl (fun acc obj => objRemoveWaiting acc obj tid) s3
    let evs3 := t.wait_objects.map (fun obj => Event.removeWaitingThread obj tid)
    let s5 := modifyThread s4 tid (fun th => { th with wait_objects := [] })
    let tls_page := (t.tls_address - TLS_AREA_VADDR) / PAGE_SIZE
    let tls_slot := ((t.tls_address - TLS_AREA_VADDR) % PAGE_SIZE) / TLS_ENTRY_SIZE
    let s6 := tlsReset s5 tls_page tls_slot
    (s6, evs0 ++ unsched.2 ++ [Event.wakeupAllWaitingThreads tid] ++ evs3 ++
         [Event.tlsSlotReset tls_page tls_slot])

/-- Helper loop of `GetFreeThreadLocalSlot`, carrying the current page
index. -/
def getFreeTLSAux : Nat → List (List Bool) → Nat × Nat × Bool
  | _, [] => (0, 0, true)
  | page, row :: rest =>
    if row.all id then getFreeTLSAux (page + 1) rest
    else
      match row.findIdx? (fun b => !b) with
      | some slot => (page, slot, false)
      | none => getFreeTLSAux (page + 1) rest

/-- `GetFreeThreadLocalSlot`: the first allocated TLS page with a free slot
and the first free slot in it, or a request to allocate a new page when all
pages are full. -/
def getFreeThreadLocalSlot (tls : List (List Bool)) : Nat × Nat × Bool :=
  getFreeTLSAux 0 tls

/-- Set bit `slot` of page `page` in a TLS bitmap. -/
def tlsSetRows (rows : List (List Bool)) (page slot : Nat) : List (List Bool) :=
  match rows.get? page with
  | none => rows
  | some row => listSet rows page (listSet row slot true)

/-- Set bit `slot` of TLS page `page` (`tls_slots[page].set(slot)`). -/
def tlsSet (s : KState) (page slot : Nat) : KState :=
  { s with tls_slots := tlsSetRows s.tls_slots page slot }

/-- The `Thread` record built by a successful `Thread::Create`: Dormant,
nominal and current priority as requested, ideal core and single-bit
affinity mask derived from the processor id, wakeup handle freshly created
(modelled as the nonzero `tid + 1`); the TLS address is filled in after slot
allocation. -/
def createThreadRecord (priority : Nat) (processor_id : Int) (tid : Nat) : Thread :=
  { status := ThreadStatus.Dormant
    nominal_priority := priority
    current_priority := priority
    processor_id := processor_id
    ideal_core := processor_id
    affinity_mask := 1 <<< processor_id.toNat
    wait_objects := []
    wait_mutex_threads := []
    lock_owner := none
    wakeup_callback := none
    mutex_wait_address := 0
    condvar_wait_address := 0
    wait_handle := 0
    arb_wait_address := 0
    tls_address := 0
    callback_handle := tid + 1
    sched := processor_id }

/-- The kernel state after the success path of `Thread::Create`: insert the
new thread, register it with the scheduler of its core, find (or allocate) a
free TLS slot, mark the slot used, and store the resulting TLS address in
the thread. -/
def createdState (s : KState) (priority : Nat) (processor_id : Int) : KState :=
  let tid := s.next_thread_id
  let th := createThreadRecord priority processor_id tid
  let s1 := { s with threads := (tid, th) :: s.threads, next_thread_id := tid + 1 }
  let s2 := schedAddThread s1 processor_id tid
  let free := getFreeThreadLocalSlot s2.tls_slots
  let available_page := if free.2.2 then s2.tls_slots.length else free.1
  let available_slot := if free.2.2 then 0 else free.2.1
  let s3 :=
    if free.2.2 then { s2 with tls_slots := s2.tls_slots ++ [List.replicate 8 false] }
    else s2
  let s4 := tlsSet s3 available_page available_slot
  let addr := TLS_AREA_VADDR + available_page * PAGE_SIZE + available_slot * TLS_ENTRY_SIZE
  modifyThread s4 tid (fun th => { th with tls_address := addr })

/-- `Thread::Create`: reject an out-of-range priority, an invalid processor
id, and an entry point that is not a valid virtual address of the owner
process, in that order and before any construction; otherwise build the
thread, register it with the scheduler of its core, and allocate and mark a
TLS slot. -/
def create (s : KState) (entry_point : Nat) (priority : Nat) (processor_id : Int) :
    Except ResultCode (KState × Nat × List Event) :=
  if priority > THREADPRIO_LOWEST then Except.error ResultCode.ERR_OUT_OF_RANGE
  else if processor_id > THREADPROCESSORID_MAX then
    Except.error ResultCode.ERR_OUT_OF_RANGE_KERNEL
  else if entry_point ∉ s.valid_addrs then Except.error (ResultCode.raw (-1))
  else
    Except.ok (createdState s priority processor_id, s.next_thread_id,
      [Event.schedAddThread processor_id s.next_thread_id priority])

/-- Tail of `ThreadWakeupCallback`: the address-arbitration cleanup (with
its always-on assertion) followed by the conditional resume. -/
def wakeupFinish (dbg : Bool) (s : KState) (tid : Nat) (acc : List Event)
    (resume : Bool) : Except Unit (KState × List Event) :=
  match getThread s tid with
  | none => Except.ok (s, acc)
  | some t =>
    let arb : Except Unit KState :=
      if t.arb_wait_address ≠ 0 then
        if t.status = ThreadStatus.WaitArb then
          Except.ok (modifyThread s tid (fun th => { th with arb_wait_address := 0 }))
        else Except.error ()
      else Except.ok s
    match arb with
    | Except.error e => Except.error e
    | Except.ok s1 =>
      if resume then
        match resumeFromWait dbg s1 tid with
        | Except.error e => Except.error e
        | Except.ok r => Except.ok (r.1, acc ++ r.2)
      else Except.ok (s1, acc)

/-- `ThreadWakeupCallback`: resolve the handle (a missing thread is a logged
stale callback, not fatal); for a thread blocked on synchronization objects,
deregister it from every waiter list and clear its `wait_objects`, then let
the wakeup callback (invoked with a `Timeout` reason) decide whether to
resume; clean up mutex/condvar waits (asserting the matching status and
removing the thread from the waiter list of its lock owner) and arbitration
waits; finally resume unless the callback vetoed it. -/
def threadWakeupCallback (fuel : Nat) (dbg : Bool) (s : KState) (tid : Nat) :
    Except Unit (KState × List Event) :=
  match getThread s tid with
  | none => Except.ok (s, [Event.staleWakeupCallback tid])
  | some t =>
    let inSynch := t.status = ThreadStatus.WaitSynchAny ∨
                   t.status = ThreadStatus.WaitSynchAll ∨
                   t.status = ThreadStatus.WaitHLEEvent
    let synch :=
      if inSynch then
        let sA := t.wait_objects.foldl (fun acc obj => objRemoveWaiting acc obj tid) s
        let sB := modifyThread sA tid (fun th => { th with wait_objects := [] })
        let evsDereg := t.wait_objects.map (fun obj => Event.removeWaitingThread obj tid)
        match t.wakeup_callback with
        | some b => (sB, evsDereg ++ [Event.invokeWakeupCallback WakeupReason.Timeout tid], b)
        | none => (sB, evsDereg, true)
      else (s, [], true)
    if t.mutex_wait_address ≠ 0 ∨ t.condvar_wait_address ≠ 0 ∨ t.wait_handle ≠ 0 then
      if t.status = ThreadStatus.WaitMutex then
        let s2 := modifyThread synch.1 tid
          (fun th => { th with mutex_wait_address := 0, condvar_wait_address := 0,
                               wait_handle := 0 })
        match t.lock_owner with
        | some owner =>
          match removeMutexWaiter fuel s2 owner tid with
          | Except.error e => Except.error e
          | Except.ok r => wakeupFinish dbg r.1 tid (synch.2.1 ++ r.2) synch.2.2
        | none => wakeupFinish dbg s2 tid synch.2.1 synch.2.2
      else Except.error ()
    else wakeupFinish dbg synch.1 tid synch.2.1 synch.2.2

/-! Preservation lemmas: which parts of the state each helper leaves
untouched, and how lookups interact with updates. -/

theorem lookupTh_updTh_self (l : List (Nat × Thread)) (k : Nat) (f : Thread → Thread) :
    lookupTh (updTh l k f) k = (lookupTh l k).map f := by
  induction l with
  | nil => rfl
  | cons p rest ih =>
    simp only [updTh, List.map_cons] at ih ⊢
    by_cases h : p.1 = k
    · simp [lookupTh, h]
    · simp only [lookupTh, if_neg h]
      exact ih

theorem lookupTh_updTh_ne (l : List (Nat × Thread)) (j k : Nat) (f : Thread → Thread)
    (h : j ≠ k) : lookupTh (updTh l k f) j = lookupTh l j := by
  induction l with
  | nil => rfl
  | cons p rest ih =>
    simp only [updTh, List.map_cons] at ih ⊢
    by_cases hp : p.1 = k
    · have haj : p.1 ≠ j := by omega
      simp only [lookupTh, if_pos hp, if_neg haj]
      exact ih
    · by_cases hj : p.1 = j
      · simp only [lookupTh, if_neg hp]
        simp [hj]
      · simp only [lookupTh, if_neg hp, if_neg hj]
        exact ih

@[simp] theorem getThread_modifyThread_self (s : KState) (k : Nat) (f : Thread → Thread) :
    getThread (modifyThread s k f) k = (getThread s k).map f :=
  lookupTh_updTh_self s.threads k f

theorem getThread_modifyThread_ne (s : KState) (j k : Nat) (f : Thread → Thread)
    (h : j ≠ k) : getThread (modifyThread s k f) j = getThread s j :=
  lookupTh_updTh_ne s.threads j k f h

@[simp] theorem getThread_setSched (s : KState) (i : Int) (sc : Sched) (k : Nat) :
    getThread (setSched s i sc) k = getThread s k := by
  unfold setSched
  split_ifs <;> rfl

@[simp] theorem getThread_schedAddThread (s : KState) (i : Int) (tid k : Nat) :
    getThread (schedAddThread s i tid) k = getThread s k := by
  unfold schedAddThread
  exact getThread_setSched ..

@[simp] theorem getThread_schedRemoveThread (s : KState) (i : Int) (tid k : Nat) :
    getThread (schedRemoveThread s i tid) k = getThread s k := by
  unfold schedRemoveThread
  exact getThread_setSched ..

@[simp] theorem getThread_schedScheduleThread (s : KState) (i : Int) (tid prio k : Nat) :
    getThread (schedScheduleThread s i tid prio) k = getThread s k := by
  unfold schedScheduleThread
  exact getThread_setSched ..

@[simp] theorem getThread_schedUnscheduleThread (s : KState) (i : Int) (tid prio k : Nat) :
    getThread (schedUnscheduleThread s i tid prio) k = getThread s k := by
  unfold schedUnscheduleThread
  exact getThread_setSched ..

@[simp] theorem getThread_schedSetThreadPriority (s : KState) (i : Int) (tid prio k : Nat) :
    getThread (schedSetThreadPriority s i tid prio) k = getThread s k := by
  unfold schedSetThreadPriority
  exact getThread_setSched ..

@[simp] theorem getThread_objRemoveWaiting (s : KState) (obj tid k : Nat) :
    getThread (objRemoveWaiting s obj tid) k = getThread s k := rfl

@[simp] theorem getThread_tlsReset (s : KState) (p q k : Nat) :
    getThread (tlsReset s p q) k = getThread s k := rfl

@[simp] theorem getThread_tlsSet (s : KState) (p q k : Nat) :
    getThread (tlsSet s p q) k = getThread s k := rfl

@[simp] theorem getThread_foldObjRemove (l : List Nat) (s : KState) (tid k : Nat) :
    getThread (l.foldl (fun acc obj => objRemoveWaiting acc obj tid) s) k =
      getThread s k := by
  induction l generalizing s with
  | nil => rfl
  | cons o rest ih => simp [List.foldl, ih]

@[simp] theorem schedCurrent_modifyThread (s : KState) (k : Nat) (f : Thread → Thread)
    (i : Int) : schedCurrent (modifyThread s k f) i = schedCurrent s i := by
  unfold schedCurrent getSched modifyThread
  split_ifs <;> rfl

theorem schedCurrent_setSched (s : KState) (i : Int) (sc : Sched) (j : Int)
    (h : sc.current_thread = (getSched s i).current_thread) :
    schedCurrent (setSched s i sc) j = schedCurrent s j := by
  simp only [schedCurrent, getSched, setSched] at h ⊢
  split_ifs at h ⊢ <;> simp_all

@[simp] theorem schedCurrent_schedAddThread (s : KState) (i : Int) (tid : Nat) (j : Int) :
    schedCurrent (schedAddThread s i tid) j = schedCurrent s j := by
  unfold schedAddThread
  apply schedCurrent_setSched
  rfl

@[simp] theorem schedCurrent_schedRemoveThread (s : KState) (i : Int) (tid : Nat) (j : Int) :
    schedCurrent (schedRemoveThread s i tid) j = schedCurrent s j := by
  unfold schedRemoveThread
  apply schedCurrent_setSched
  rfl

@[simp] theorem schedCurrent_schedScheduleThread (s : KState) (i : Int) (tid prio : Nat)
    (j : Int) : schedCurrent (schedScheduleThread s i tid prio) j = schedCurrent s j := by
  unfold schedScheduleThread
  apply schedCurrent_setSched
  rfl

@[simp] theorem schedCurrent_schedUnscheduleThread (s : KState) (i : Int) (tid prio : Nat)
    (j : Int) : schedCurrent (schedUnscheduleThread s i tid prio) j = schedCurrent s j := by
  unfold schedUnscheduleThread
  apply schedCurrent_setSched
  rfl

@[simp] theorem schedCurrent_schedSetThreadPriority (s : KState) (i : Int) (tid prio : Nat)
    (j : Int) : schedCurrent (schedSetThreadPriority s i tid prio) j = schedCurrent s j := by
  unfold schedSetThreadPriority
  apply schedCurrent_setSched
  rfl

@[simp] theorem schedCurrent_objRemoveWaiting (s : KState) (obj tid : Nat) (i : Int) :
    schedCurrent (objRemoveWaiting s obj tid) i = schedCurrent s i := rfl

@[simp] theorem schedCurrent_tlsReset (s : KState) (p q : Nat) (i : Int) :
    schedCurrent (tlsReset s p q) i = schedCurrent s i := by
  unfold tlsReset schedCurrent getSched
  split_ifs <;> rfl

@[simp] theorem schedCurrent_tlsSet (s : KState) (p q : Nat) (i : Int) :
    schedCurrent (tlsSet s p q) i = schedCurrent s i := by
  unfold tlsSet schedCurrent getSched
  split_ifs <;> rfl

/-! Characterization of the priority recomputation loop. -/

/-- One step of the `UpdatePriority` loop, named for the lemmas below. -/
def prioStep (s : KState) (a : Nat) (wid : Nat) : Nat :=
  match getThread s wid with
  | some w => if w.nominal_priority < a then w.nominal_priority else a
  | none => a

/-- The nominal priorities of the threads named by a list of thread ids. -/
def nominalsOf (s : KState) (l : List Nat) : List Nat :=
  l.filterMap (fun wid => (getThread s wid).map (fun w => w.nominal_priority))

/-- The nominal priorities of all mutex waiters of a thread. -/
def waiterNominals (s : KState) (t : Thread) : List Nat :=
  nominalsOf s t.wait_mutex_threads

theorem computeNewPriority_eq_fold (s : KState) (t : Thread) :
    computeNewPriority s t = t.wait_mutex_threads.foldl (prioStep s) t.nominal_priority :=
  rfl

theorem prioFold_spec (s : KState) (l : List Nat) (acc : Nat) :
    l.foldl (prioStep s) acc ≤ acc ∧
    (∀ p ∈ nominalsOf s l, l.foldl (prioStep s) acc ≤ p) ∧
    (l.foldl (prioStep s) acc = acc ∨ l.foldl (prioStep s) acc ∈ nominalsOf s l) := by
  induction l generalizing acc with
  | nil => simp [nominalsOf]
  | cons wid rest ih =>
    simp only [List.foldl_cons]
    cases hw : getThread s wid with
    | none =>
      have hstep : prioStep s acc wid = acc := by simp [prioStep, hw]
      have hnoms : nominalsOf s (wid :: rest) = nominalsOf s rest := by
        simp [nominalsOf, List.filterMap_cons, hw]
      rw [hstep, hnoms]
      exact ih acc
    | some w =>
      have hnoms : nominalsOf s (wid :: rest) = w.nominal_priority :: nominalsOf s rest := by
        simp [nominalsOf, List.filterMap_cons, hw]
      have hstep : prioStep s acc wid =
          if w.nominal_priority < acc then w.nominal_priority else acc := by
        simp [prioStep, hw]
      rw [hstep, hnoms]
      obtain ⟨ih1, ih2, ih3⟩ := ih (if w.nominal_priority < acc then w.nominal_priority else acc)
      have hle : (if w.nominal_priority < acc then w.nominal_priority else acc) ≤ acc := by
        split_ifs <;> omega
      have hlew : (if w.nominal_priority < acc then w.nominal_priority else acc) ≤
          w.nominal_priority := by
        split_ifs <;> omega
      refine ⟨le_trans ih1 hle, ?_, ?_⟩
      · intro p hp
        rcases List.mem_cons.mp hp with hpw | hpr
        · rw [hpw]
          exact le_trans ih1 hlew
        · exact ih2 p hpr
      · rcases ih3 with heq | hmem
        · rw [heq]
          by_cases hc : w.nominal_priority < acc




          · simp [hc]
          · simp [hc]
        · exact Or.inr (List.mem_cons_of_mem _ hmem)

theorem computeNewPriority_le_nominal (s : KState) (t : Thread) :
    computeNewPriority s t ≤ t.nominal_priority := by
  rw [computeNewPriority_eq_fold]
  exact (prioFold_spec s t.wait_mutex_threads t.nominal_priority).1

theorem computeNewPriority_le_waiters (s : KState) (t : Thread) :
    ∀ p ∈ waiterNominals s t, computeNewPriority s t ≤ p := by
  rw [computeNewPriority_eq_fold]
  exact (prioFold_spec s t.wait_mutex_threads t.nominal_priority).2.1

theorem computeNewPriority_attained (s : KState) (t : Thread) :
    computeNewPriority s t = t.nominal_priority ∨
      computeNewPriority s t ∈ waiterNominals s t := by
  rw [computeNewPriority_eq_fold]
  exact (prioFold_spec s t.wait_mutex_threads t.nominal_priority).2.2

/-! The effective-priority invariant and its preservation. -/

/-- The priority-inheritance invariant: every effective (current) priority
is numerically at most the nominal priority of its thread. -/
def priorityInv (s : KState) : Prop :=
  ∀ k t, getThread s k = some t → t.current_priority ≤ t.nominal_priority

theorem priorityInv_updatePriority (fuel : Nat) (s : KState) (tid : Nat)
    (h : priorityInv s) : priorityInv (updatePriority fuel s tid).1 := by
  induction fuel generalizing s tid with
  | zero => exact h
  | succ f ih =>
    rw [updatePriority]
    cases ht : getThread s tid with
    | none => exact h
    | some t =>
      simp only
      by_cases hcur : computeNewPriority s t = t.current_priority
      · rw [if_pos hcur]
        exact h
      · rw [if_neg hcur]
        have hinv2 : priorityInv (modifyThread (schedSetThreadPriority s t.sched tid
            (computeNewPriority s t)) tid
            (fun th => { th with current_priority := computeNewPriority s t })) := by
          intro k t2 hk
          by_cases hkt : k = tid
          · subst hkt
            rw [getThread_modifyThread_self, getThread_schedSetThreadPriority, ht] at hk
            have := computeNewPriority_le_nominal s t
            cases hk
            exact this
          · rw [getThread_modifyThread_ne _ _ _ _ hkt,
              getThread_schedSetThreadPriority] at hk
            exact h k t2 hk
        cases ho : t.lock_owner with
        | none => simpa [ho] using hinv2
        | some owner =>
          simp only [ho]
          exact ih _ _ hinv2

theorem priorityInv_updatePriority_of_rest (fuel : Nat) (s : KState) (tid : Nat)
    (h : ∀ k t, k ≠ tid → getThread s k = some t →
      t.current_priority ≤ t.nominal_priority) :
    priorityInv (updatePriority (fuel + 1) s tid).1 := by
  rw [updatePriority]
  cases ht : getThread s tid with
  | none =>
    intro k t2 hk
    by_cases hkt : k = tid
    · subst hkt
      rw [ht] at hk
      cases hk
    · exact h k t2 hkt hk
  | some t =>
    simp only
    by_cases hcur : computeNewPriority s t = t.current_priority
    · rw [if_pos hcur]
      intro k t2 hk
      by_cases hkt : k = tid
      · subst hkt
        rw [ht] at hk
        cases hk
        have := computeNewPriority_le_nominal s t
        omega
      · exact h k t2 hkt hk
    · rw [if_neg hcur]
      have hinv2 : priorityInv (modifyThread (schedSetThreadPriority s t.sched tid
          (computeNewPriority s t)) tid
          (fun th => { th with current_priority := computeNewPriority s t })) := by
        intro k t2 hk
        by_cases hkt : k = tid
        · subst hkt
          rw [getThread_modifyThread_self, getThread_schedSetThreadPriority, ht] at hk
          have := computeNewPriority_le_nominal s t
          cases hk
          exact this
        · rw [getThread_modifyThread_ne _ _ _ _ hkt,
            getThread_schedSetThreadPriority] at hk
          exact h k t2 hkt hk
      cases ho : t.lock_owner with
      | none => simpa [ho] using hinv2
      | some owner =>
        simp only [ho]
        exact priorityInv_updatePriority _ _ _ hinv2

/-- The state change of one non-trivial `UpdatePriority` step on `tid`:
push the new priority to the scheduler of the thread, then store it as the
current priority. -/
def prioApplied (s : KState) (tid : Nat) (t : Thread) : KState :=
  modifyThread (schedSetThreadPriority s t.sched tid (computeNewPriority s t)) tid
    (fun th => { th with current_priority := computeNewPriority s t })

/-- C2: `UpdatePriority` computes the minimum of the nominal priority of the
thread and the nominal priorities of all threads in its
`wait_mutex_threads` collection (the computed value is a lower bound of all
of them and is attained by one of them); if that minimum equals the current
priority the state and the trace are untouched; otherwise the new priority
is pushed to the scheduler, stored as the current priority, and
`UpdatePriority` recurses into the lock owner when one exists. -/
theorem claim_C2_updatePriority (fuel : Nat) (s : KState) (tid : Nat) (t : Thread)
    (ht : getThread s tid = some t) :
    (computeNewPriority s t ≤ t.nominal_priority ∧
     (∀ p ∈ waiterNominals s t, computeNewPriority s t ≤ p) ∧
     (computeNewPriority s t = t.nominal_priority ∨
      computeNewPriority s t ∈ waiterNominals s t)) ∧
    (computeNewPriority s t = t.current_priority →
      updatePriority (fuel + 1) s tid = (s, [])) ∧
    (computeNewPriority s t ≠ t.current_priority →
      getThread (prioApplied s tid t) tid =
        some { t with current_priority := computeNewPriority s t } ∧
      updatePriority (fuel + 1) s tid =
        (match t.lock_owner with
         | none => (prioApplied s tid t,
             [Event.schedSetPriority t.sched tid (computeNewPriority s t)])
         | some owner =>
             ((updatePriority fuel (prioApplied s tid t) owner).1,
              Event.schedSetPriority t.sched tid (computeNewPriority s t) ::
                (updatePriority fuel (prioApplied s tid t) owner).2))) := by
  refine ⟨⟨computeNewPriority_le_nominal s t, computeNewPriority_le_waiters s t,
    computeNewPriority_attained s t⟩, ?_, ?_⟩
  · intro heq
    rw [updatePriority, ht]
    simp only [if_pos heq]
  · intro hne
    constructor
    · rw [prioApplied, getThread_modifyThread_self, getThread_schedSetThreadPriority, ht]
      rfl
    · rw [updatePriority, ht]
      simp only [if_neg hne]
      cases ho : t.lock_owner <;> simp [prioApplied]

/-- C8 witness helper scenario is built later; here are the preservation
facts for the remaining priority operations. -/
theorem priorityInv_setPriority (fuel : Nat) (s : KState) (tid p : Nat) (r)
    (h : priorityInv s) (hr : setPriority (fuel + 1) s tid p = Except.ok r) :
    priorityInv r.1 := by
  unfold setPriority at hr
  by_cases hp : p ≤ THREADPRIO_LOWEST
  · rw [if_pos hp] at hr
    cases ht : getThread s tid with
    | none =>
      rw [ht] at hr
      cases hr
      exact h
    | some t =>
      rw [ht] at hr
      simp only at hr
      cases hr
      apply priorityInv_updatePriority_of_rest
      intro k t2 hkt hk
      rw [getThread_modifyThread_ne _ _ _ _ hkt] at hk
      exact h k t2 hk
  · rw [if_neg hp] at hr
    cases hr

/-- The invariant only depends on the two priority fields, so any update
that preserves them preserves the invariant pointwise. -/
theorem inv_of_same_priorities {s : KState} (h : priorityInv s) {k : Nat}
    {t t2 : Thread} (ht : getThread s k = some t)
    (hcur : t2.current_priority = t.current_priority)
    (hnom : t2.nominal_priority = t.nominal_priority) :
    t2.current_priority ≤ t2.nominal_priority := by
  rw [hcur, hnom]
  exact h k t ht

theorem priorityInv_addMutexWaiter (fuel : Nat) (s : KState) (a b : Nat) (r)
    (h : priorityInv s) (hr : addMutexWaiter fuel s a b = Except.ok r) :
    priorityInv r.1 := by
  unfold addMutexWaiter at hr
  cases ha : getThread s a with
  | none =>
    rw [ha] at hr
    cases hb : getThread s b <;> rw [hb] at hr <;> cases hr <;> exact h
  | some owner =>
    cases hb : getThread s b with
    | none =>
      rw [ha, hb] at hr
      cases hr
      exact h
    | some waiter =>
      rw [ha, hb] at hr
      simp only at hr
      by_cases h1 : waiter.lock_owner = some a
      · rw [if_pos h1] at hr
        by_cases h2 : b ∈ owner.wait_mutex_threads
        · rw [if_pos h2] at hr
          cases hr
          exact h
        · rw [if_neg h2] at hr
          cases hr
      · rw [if_neg h1] at hr
        by_cases h2 : waiter.lock_owner ≠ none
        · rw [if_pos h2] at hr
          cases hr
        · rw [if_neg h2] at hr
          by_cases h3 : b ∈ owner.wait_mutex_threads
          · rw [if_pos h3] at hr
            cases hr
          · rw [if_neg h3] at hr
            cases hr
            apply priorityInv_updatePriority
            intro k t2 hk
            by_cases hkb : k = a
            · subst hkb
              rw [getThread_modifyThread_self] at hk
              by_cases hab : k = b
              · subst hab
                rw [getThread_modifyThread_self, hb] at hk
                simp only [Option.map_map] at hk
                cases hk
                exact inv_of_same_priorities h hb rfl rfl
              · rw [getThread_modifyThread_ne _ _ _ _ hab, ha] at hk
                cases hk
                exact inv_of_same_priorities h ha rfl rfl
            · rw [getThread_modifyThread_ne _ _ _ _ hkb] at hk
              by_cases hkb2 : k = b
              · subst hkb2
                rw [getThread_modifyThread_self, hb] at hk
                cases hk
                exact inv_of_same_priorities h hb rfl rfl
              · rw [getThread_modifyThread_ne _ _ _ _ hkb2] at hk
                exact h _ _ hk

theorem priorityInv_removeMutexWaiter (fuel : Nat) (s : KState) (a b : Nat) (r)
    (h : priorityInv s) (hr : removeMutexWaiter fuel s a b = Except.ok r) :
    priorityInv r.1 := by
  unfold removeMutexWaiter at hr
  cases ha : getThread s a with
  | none =>
    rw [ha] at hr
    cases hb : getThread s b <;> rw [hb] at hr <;> cases hr <;> exact h
  | some owner =>
    cases hb : getThread s b with
    | none =>
      rw [ha, hb] at hr
      cases hr
      exact h
    | some waiter =>
      rw [ha, hb] at hr
      simp only at hr
      by_cases h1 : waiter.lock_owner = some a
      · rw [if_pos h1] at hr
        by_cases h2 : b ∈ owner.wait_mutex_threads
        · rw [if_pos h2] at hr
          cases hr
          apply priorityInv_updatePriority
          intro k t2 hk
          by_cases hka : k = b
          · subst hka
            rw [getThread_modifyThread_self] at hk
            by_cases hba : k = a
            · subst hba
              rw [getThread_modifyThread_self, ha] at hk
              simp only [Option.map_map] at hk
              cases hk
              exact inv_of_same_priorities h ha rfl rfl
            · rw [getThread_modifyThread_ne _ _ _ _ hba, hb] at hk
              cases hk
              exact inv_of_same_priorities h hb rfl rfl
          · rw [getThread_modifyThread_ne _ _ _ _ hka] at hk
            by_cases hka2 : k = a
            · subst hka2
              rw [getThread_modifyThread_self, ha] at hk
              cases hk
              exact inv_of_same_priorities h ha rfl rfl
            · rw [getThread_modifyThread_ne _ _ _ _ hka2] at hk
              exact h _ _ hk
        · rw [if_neg h2] at hr
          cases hr
      · rw [if_neg h1] at hr
        cases hr

/-- C8: the invariant `current_priority ≤ nominal_priority` (numerically:
inheritance can only lower the value, never raise it above nominal) is
preserved by `UpdatePriority`, `SetPriority`, `AddMutexWaiter`, and
`RemoveMutexWaiter`, while `BoostPriority` bypasses the bookkeeping
entirely: it overwrites the current priority with the requested value
without consulting the nominal priority. -/
theorem claim_C8_priority_invariant (s : KState) (fuel : Nat) (tid a b p : Nat) :
    (priorityInv s → priorityInv (updatePriority fuel s tid).1) ∧
    (priorityInv s → ∀ r, setPriority (fuel + 1) s tid p = Except.ok r →
      priorityInv r.1) ∧
    (priorityInv s → ∀ r, addMutexWaiter fuel s a b = Except.ok r →
      priorityInv r.1) ∧
    (priorityInv s → ∀ r, removeMutexWaiter fuel s a b = Except.ok r →
      priorityInv r.1) ∧
    (getThread (boostPriority s tid p).1 tid =
      (getThread s tid).map (fun th => { th with current_priority := p })) := by
  refine ⟨fun h => priorityInv_updatePriority fuel s tid h,
    fun h r hr => priorityInv_setPriority fuel s tid p r h hr,
    fun h r hr => priorityInv_addMutexWaiter fuel s a b r h hr,
    fun h r hr => priorityInv_removeMutexWaiter fuel s a b r h hr, ?_⟩
  unfold boostPriority
  cases ht : getThread s tid with
  | none => simp [ht]
  | some t => simp [ht]

/-! Lemmas about the TLS bitmap used by the double-`Stop` claim. -/

theorem listSet_listSet {α : Type} (l : List α) (i : Nat) (x : α) :
    listSet (listSet l i x) i x = listSet l i x := by
  induction l generalizing i with
  | nil => rfl
  | cons y rest ih =>
    cases i with
    | zero => rfl
    | succ n => simp [listSet, ih]

theorem get_listSet_self {α : Type} (l : List α) (i : Nat) (x : α) :
    (listSet l i x).get? i = (l.get? i).map (fun _ => x) := by
  induction l generalizing i with
  | nil => rfl
  | cons y rest ih =>
    cases i with
    | zero => rfl
    | succ n => simpa [listSet] using ih n

theorem tlsResetRows_idem (rows : List (List Bool)) (p q : Nat) :
    tlsResetRows (tlsResetRows rows p q) p q = tlsResetRows rows p q := by
  cases h : rows.get? p with
  | none =>
    unfold tlsResetRows
    simp only [h]
  | some row =>
    unfold tlsResetRows
    simp only [h, get_listSet_self, Option.map_some', listSet_listSet]

@[simp] theorem tls_slots_modifyThread (s : KState) (k : Nat) (f : Thread → Thread) :
    (modifyThread s k f).tls_slots = s.tls_slots := rfl

@[simp] theorem tls_slots_setSched (s : KState) (i : Int) (sc : Sched) :
    (setSched s i sc).tls_slots = s.tls_slots := by
  unfold setSched
  split_ifs <;> rfl

@[simp] theorem tls_slots_schedUnscheduleThread (s : KState) (i : Int) (tid prio : Nat) :
    (schedUnscheduleThread s i tid prio).tls_slots = s.tls_slots := by
  unfold schedUnscheduleThread
  exact tls_slots_setSched ..

@[simp] theorem tls_slots_objRemoveWaiting (s : KState) (obj tid : Nat) :
    (objRemoveWaiting s obj tid).tls_slots = s.tls_slots := rfl

@[simp] theorem tls_slots_foldObjRemove (l : List Nat) (s : KState) (tid : Nat) :
    ((l.foldl (fun acc obj => objRemoveWaiting acc obj tid) s)).tls_slots =
      s.tls_slots := by
  induction l generalizing s with
  | nil => rfl
  | cons o rest ih => simp [List.foldl, ih]

/-! Claim theorems: placement equivalence, duplicate resume, invalid
resume, creation errors. -/

/-- C3: the core-placement computation of `ResumeFromWait` and the one of
`ChangeCore` (two separate translations of the duplicated source blocks) are
behaviorally identical: on every kernel state and thread they resolve the
same core, perform the same scheduler bookkeeping moves in the same order,
and fail the same assertion when the resolved core is out of range. -/
theorem claim_C3_placement_equivalence :
    ∀ (s : KState) (tid : Nat), corePlacementResume s tid = corePlacementChangeCore s tid :=
  fun _ _ => rfl

/-- C5: `ResumeFromWait` on a thread that is already `Ready` (with its
wakeup callback already cleared and no registered wait objects, the
invariants the function itself asserts) leaves the kernel state completely
unchanged and performs no scheduler call: no duplicate insertion into any
ready queue. -/
theorem claim_C5_resume_ready_noop (dbg : Bool) (s : KState) (tid : Nat) (t : Thread)
    (ht : getThread s tid = some t) (hst : t.status = ThreadStatus.Ready)
    (hwo : t.wait_objects = []) (hcb : t.wakeup_callback = none) :
    resumeFromWait dbg s tid = Except.ok (s, []) := by
  unfold resumeFromWait
  rw [ht]
  simp [hwo, hst, hcb]

/-- C7 (amended): resuming a `Running` or `Dead` thread is rejected only by
a debug-only assertion (`DEBUG_ASSERT_MSG`): when debug assertions are
compiled in the call aborts, but otherwise it merely returns with no effect
on the kernel state — unlike the always-on assertions used elsewhere. -/
theorem claim_C7_resume_dead_running (s : KState) (tid : Nat) (t : Thread)
    (ht : getThread s tid = some t) (hwo : t.wait_objects = [])
    (hst : t.status = ThreadStatus.Running ∨ t.status = ThreadStatus.Dead) :
    resumeFromWait true s tid = Except.error () ∧
    resumeFromWait false s tid = Except.ok (s, []) := by
  rcases hst with h | h <;>
    (constructor <;> (unfold resumeFromWait; rw [ht]; simp [hwo, h]))

/-- C10: `Thread::Create` surfaces invalid arguments synchronously as error
result codes, before any thread is constructed: a priority above
`THREADPRIO_LOWEST` yields `ERR_OUT_OF_RANGE`; otherwise a processor id
above `THREADPROCESSORID_MAX` yields `ERR_OUT_OF_RANGE_KERNEL`; otherwise
an entry point that is not a valid virtual address of the owner process
yields the raw error code `-1`. -/
theorem claim_C10_create_errors (s : KState) (entry prio : Nat) (pid : Int) :
    (prio > THREADPRIO_LOWEST →
      create s entry prio pid = Except.error ResultCode.ERR_OUT_OF_RANGE) ∧
    (prio ≤ THREADPRIO_LOWEST → pid > THREADPROCESSORID_MAX →
      create s entry prio pid = Except.error ResultCode.ERR_OUT_OF_RANGE_KERNEL) ∧
    (prio ≤ THREADPRIO_LOWEST → pid ≤ THREADPROCESSORID_MAX →
      entry ∉ s.valid_addrs →
      create s entry prio pid = Except.error (ResultCode.raw (-1))) := by
  refine ⟨fun h1 => ?_, fun h1 h2 => ?_, fun h1 h2 h3 => ?_⟩
  · unfold create
    rw [if_pos h1]
  · unfold create
    rw [if_neg (by omega), if_pos h2]
  · unfold create
    rw [if_neg (by omega), if_neg (by omega), if_pos h3]

@[simp] theorem tls_slots_tlsReset (s : KState) (p q : Nat) :
    (tlsReset s p q).tls_slots = tlsResetRows s.tls_slots p q := rfl

/-- What one `Stop` call does to the stopped thread, its trace and the TLS
bitmap, for an arbitrary starting state. -/
theorem stop_spec (s : KState) (tid : Nat) (t : Thread)
    (ht : getThread s tid = some t) :
    getThread (stop s tid).1 tid =
      some { t with callback_handle := 0, status := ThreadStatus.Dead,
                    wait_objects := [] } ∧
    (stop s tid).1.tls_slots =
      tlsResetRows s.tls_slots ((t.tls_address - TLS_AREA_VADDR) / PAGE_SIZE)
        (((t.tls_address - TLS_AREA_VADDR) % PAGE_SIZE) / TLS_ENTRY_SIZE) ∧
    (t.status = ThreadStatus.Ready → (stop s tid).2 =
      [Event.coreTimingUnschedule t.callback_handle,
       Event.closeHandle t.callback_handle,
       Event.schedUnscheduleThread t.sched tid t.current_priority,
       Event.wakeupAllWaitingThreads tid] ++
      t.wait_objects.map (fun obj => Event.removeWaitingThread obj tid) ++
      [Event.tlsSlotReset ((t.tls_address - TLS_AREA_VADDR) / PAGE_SIZE)
        (((t.tls_address - TLS_AREA_VADDR) % PAGE_SIZE) / TLS_ENTRY_SIZE)]) ∧
    (t.status ≠ ThreadStatus.Ready → (stop s tid).2 =
      [Event.coreTimingUnschedule t.callback_handle,
       Event.closeHandle t.callback_handle,
       Event.wakeupAllWaitingThreads tid] ++
      t.wait_objects.map (fun obj => Event.removeWaitingThread obj tid) ++
      [Event.tlsSlotReset ((t.tls_address - TLS_AREA_VADDR) / PAGE_SIZE)
        (((t.tls_address - TLS_AREA_VADDR) % PAGE_SIZE) / TLS_ENTRY_SIZE)]) := by
  by_cases hrdy : t.status = ThreadStatus.Ready
  · simp only [stop, ht]
    rw [if_pos hrdy]
    refine ⟨?_, ?_, fun _ => ?_, fun hc => absurd hrdy hc⟩
    · rw [getThread_tlsReset, getThread_modifyThread_self, getThread_foldObjRemove,
        getThread_modifyThread_self, getThread_schedUnscheduleThread,
        getThread_modifyThread_self, ht]
      rfl
    · simp
    · simp
  · simp only [stop, ht]
    rw [if_neg hrdy]
    refine ⟨?_, ?_, fun hc => absurd hc hrdy, fun _ => ?_⟩
    · rw [getThread_tlsReset, getThread_modifyThread_self, getThread_foldObjRemove,
        getThread_modifyThread_self, getThread_modifyThread_self, ht]
      rfl
    · simp
    · simp

/-- C6 (amended): a second `Stop` on the same thread skips the ready-queue
unscheduling (it is guarded by the `Ready` status check, which the `Dead`
status now fails), but it is not guarded by a Dead-state check as a whole:
it re-runs the wakeup-event cancellation, the handle close, and the TLS-slot
reset.  Re-running the reset clears an already-clear bit, so the TLS bitmap
itself does not change further. -/
theorem claim_C6_stop_twice (s : KState) (tid : Nat) (t : Thread)
    (ht : getThread s tid = some t) :
    (∀ c p, Event.schedUnscheduleThread c tid p ∉ (stop (stop s tid).1 tid).2) ∧
    Event.tlsSlotReset ((t.tls_address - TLS_AREA_VADDR) / PAGE_SIZE)
        (((t.tls_address - TLS_AREA_VADDR) % PAGE_SIZE) / TLS_ENTRY_SIZE) ∈
      (stop (stop s tid).1 tid).2 ∧
    (stop (stop s tid).1 tid).1.tls_slots = (stop s tid).1.tls_slots := by
  obtain ⟨h1, h2, _, _⟩ := stop_spec s tid t ht
  obtain ⟨_, h2b, _, h4b⟩ := stop_spec (stop s tid).1 tid _ h1
  have h3b := h4b (fun hc => ThreadStatus.noConfusion hc)
  refine ⟨?_, ?_, ?_⟩
  · intro c p
    rw [h3b]
    simp
  · rw [h3b]
    simp
  · rw [h2b, h2]
    exact tlsResetRows_idem ..

/-! The priority-inheritance chain scenario: thread 2 waits on a mutex owned
by thread 1 (already registered), and thread 3 is about to be registered as
a waiter on a mutex owned by thread 2. -/

/-- A thread of the chain scenario, with the given nominal priority, lock
owner back-reference and mutex waiter list. -/
def chainThread (nom : Nat) (lo : Option Nat) (wm : List Nat) (st : ThreadStatus) : Thread :=
  { status := st
    nominal_priority := nom
    current_priority := nom
    processor_id := 0
    ideal_core := 0
    affinity_mask := 1
    wait_objects := []
    wait_mutex_threads := wm
    lock_owner := lo
    wakeup_callback := none
    mutex_wait_address := 0
    condvar_wait_address := 0
    wait_handle := 0
    arb_wait_address := 0
    tls_address := TLS_AREA_VADDR
    callback_handle := 7
    sched := 0 }

/-- Kernel state of the chain scenario: thread 1 (nominal `p1`) owns a mutex
thread 2 (nominal `p2`) waits on; thread 3 (nominal `p3`) waits on nothing
yet. -/
def chainState (p1 p2 p3 : Nat) : KState :=
  { threads := [(1, chainThread p1 none [2] ThreadStatus.Running),
                (2, chainThread p2 (some 1) [] ThreadStatus.WaitMutex),
                (3, chainThread p3 none [] ThreadStatus.WaitMutex)]
    sched0 := ⟨none, [], []⟩
    sched1 := ⟨none, [], []⟩
    sched2 := ⟨none, [], []⟩
    sched3 := ⟨none, [], []⟩
    tls_slots := []
    objects := []
    valid_addrs := []
    next_thread_id := 4 }

/-- C1 counterexample: in the chain T3 → T2 → T1 with nominal priorities
10, 20, 30, registering T3 as a waiter of T2 leaves the current priority of
T1 at 20 (the nominal priority of its direct waiter T2), not at 10 (the
nominal priority of T3) as the transitivity claim requires:
`UpdatePriority` reads the nominal, not the boosted, priorities of the
direct waiters. -/
theorem claim_C1_counterexample :
    ((addMutexWaiter 5 (chainState 30 20 10) 2 3).toOption.bind
      (fun r => (getThread r.1 1).map (fun t => t.current_priority))) = some 20 ∧
    ((addMutexWaiter 5 (chainState 30 20 10) 2 3).toOption.bind
      (fun r => (getThread r.1 1).map (fun t => t.current_priority))) ≠ some 10 := by
  constructor <;> decide

/-- C1 (amended): with nominal priorities `p3 < p2 < p1`, registering T3 as
a waiter of T2 boosts the current priority of T2 to `p3` but the current
priority of T1 only to `p2` (the minimum over the nominal priorities of its
direct waiters) — the boost does not propagate transitively.  Removing T3
restores the current priority of T2 to its nominal `p2`, with T1 remaining
at `p2`; removing T2 as a waiter of T1 then restores T1 to its nominal
`p1`. -/
theorem claim_C1_inheritance (p1 p2 p3 fuel : Nat) (h32 : p3 < p2) (h21 : p2 < p1) :
    ∃ s1 e1 s2 e2 s3 e3,
      addMutexWaiter (fuel + 2) (chainState p1 p2 p3) 2 3 = Except.ok (s1, e1) ∧
      (getThread s1 2).map (fun t => t.current_priority) = some p3 ∧
      (getThread s1 1).map (fun t => t.current_priority) = some p2 ∧
      removeMutexWaiter (fuel + 2) s1 2 3 = Except.ok (s2, e2) ∧
      (getThread s2 2).map (fun t => t.current_priority) = some p2 ∧
      (getThread s2 1).map (fun t => t.current_priority) = some p2 ∧
      removeMutexWaiter (fuel + 2) s2 1 2 = Except.ok (s3, e3) ∧
      (getThread s3 1).map (fun t => t.current_priority) = some p1 := by
  have hf : fuel + 2 = (fuel + 1) + 1 := rfl
  have hne32 : p3 ≠ p2 := Nat.ne_of_lt h32
  have hne21 : p2 ≠ p1 := Nat.ne_of_lt h21
  have hne23 : p2 ≠ p3 := fun h => hne32 h.symm
  have hne12 : p1 ≠ p2 := fun h => hne21 h.symm
  refine ⟨{ chainState p1 p2 p3 with threads :=
      [(1, { chainThread p1 none [2] ThreadStatus.Running with current_priority := p2 }),
       (2, { chainThread p2 (some 1) [3] ThreadStatus.WaitMutex with current_priority := p3 }),
       (3, chainThread p3 (some 2) [] ThreadStatus.WaitMutex)] },
    [Event.schedSetPriority 0 2 p3, Event.schedSetPriority 0 1 p2],
    { chainState p1 p2 p3 with threads :=
      [(1, { chainThread p1 none [2] ThreadStatus.Running with current_priority := p2 }),
       (2, chainThread p2 (some 1) [] ThreadStatus.WaitMutex),
       (3, chainThread p3 none [] ThreadStatus.WaitMutex)] },
    [Event.schedSetPriority 0 2 p2],
    { chainState p1 p2 p3 with threads :=
      [(1, chainThread p1 none [] ThreadStatus.Running),
       (2, chainThread p2 none [] ThreadStatus.WaitMutex),
       (3, chainThread p3 none [] ThreadStatus.WaitMutex)] },
    [Event.schedSetPriority 0 1 p1],
    ?_, ?_, ?_, ?_, ?_, ?_, ?_, ?_⟩ <;>
    simp [hf, addMutexWaiter, removeMutexWaiter, updatePriority, computeNewPriority,
      chainState, chainThread, getThread, lookupTh, updTh, modifyThread,
      schedSetThreadPriority, setSched, getSched, h32, h21, hne32, hne21, hne23, hne12]

/-- The update `ResumeFromWait` applies to the thread record before running
placement: clear the wakeup callback and mark the thread `Ready`. -/
def readyUpd (th : Thread) : Thread :=
  { th with wakeup_callback := none, status := ThreadStatus.Ready }

/-- If the ideal core of a waking thread is a real core whose scheduler has
no running thread, the placement block resolves to exactly that core, no
matter what the free-core scan or the previous-processor fallback would have
produced. -/
theorem resume_places_ideal_core (dbg : Bool) (s : KState) (tid : Nat) (t : Thread)
    (ht : getThread s tid = some t) (hwo : t.wait_objects = [])
    (hst : t.status ≠ ThreadStatus.Ready ∧ t.status ≠ ThreadStatus.Running ∧
           t.status ≠ ThreadStatus.Dead)
    (hc0 : 0 ≤ t.ideal_core) (hc4 : t.ideal_core < 4)
    (hfree : schedCurrent s t.ideal_core = none) :
    ∃ s2 tr, resumeFromWait dbg s tid = Except.ok (s2, tr) ∧
      (getThread s2 tid).map (fun th => th.processor_id) = some t.ideal_core ∧
      (getThread s2 tid).map (fun th => th.status) = some ThreadStatus.Ready := by
  obtain ⟨hn1, hn2, hn3⟩ := hst
  have hbody : ∀ hh : t.status = ThreadStatus.WaitSynchAll ∨
      t.status = ThreadStatus.WaitSynchAny ∨ t.status = ThreadStatus.WaitHLEEvent ∨
      t.status = ThreadStatus.WaitSleep ∨ t.status = ThreadStatus.WaitIPC ∨
      t.status = ThreadStatus.WaitMutex ∨ t.status = ThreadStatus.WaitArb ∨
      t.status = ThreadStatus.Dormant,
      ∃ s2 tr, resumeFromWait dbg s tid = Except.ok (s2, tr) ∧
        (getThread s2 tid).map (fun th => th.processor_id) = some t.ideal_core ∧
        (getThread s2 tid).map (fun th => th.status) = some ThreadStatus.Ready := by
    intro hh
    have hresume : resumeFromWait dbg s tid =
        corePlacementResume (modifyThread s tid readyUpd) tid := by
      unfold resumeFromWait
      rw [ht]
      rcases hh with h | h | h | h | h | h | h | h <;> (simp [hwo, h]; try rfl)
    rw [hresume]
    have ht1 : getThread (modifyThread s tid readyUpd) tid = some (readyUpd t) := by
      rw [getThread_modifyThread_self, ht]
      rfl
    have hne : t.ideal_core ≠ -1 := by omega
    have hfree1 : schedCurrent (modifyThread s tid readyUpd) t.ideal_core = none := by
      rw [schedCurrent_modifyThread]
      exact hfree
    unfold corePlacementResume
    rw [ht1]
    simp only
    have hic : (readyUpd t).ideal_core = t.ideal_core := rfl
    have hcond : t.ideal_core ≠ -1 ∧
        schedCurrent (modifyThread s tid readyUpd) t.ideal_core = none := ⟨hne, hfree1⟩
    rw [hic, if_pos hcond, if_pos hc4]
    by_cases hmove : t.ideal_core ≠ (readyUpd t).processor_id
    · rw [if_pos hmove]
      refine ⟨_, _, rfl, ?_, ?_⟩ <;> simp [ht1, readyUpd]
    · rw [if_neg hmove]
      refine ⟨_, _, rfl, ?_, ?_⟩ <;> simp [ht1, readyUpd]
  cases hcs : t.status with
  | Ready => exact absurd hcs hn1
  | Running => exact absurd hcs hn2
  | Dead => exact absurd hcs hn3
  | WaitSynchAll => exact hbody (by simp [hcs])
  | WaitSynchAny => exact hbody (by simp [hcs])
  | WaitHLEEvent => exact hbody (by simp [hcs])
  | WaitSleep => exact hbody (by simp [hcs])
  | WaitIPC => exact hbody (by simp [hcs])
  | WaitMutex => exact hbody (by simp [hcs])
  | WaitArb => exact hbody (by simp [hcs])
  | Dormant => exact hbody (by simp [hcs])

@[simp] theorem tls_slots_schedAddThread (s : KState) (i : Int) (tid : Nat) :
    (schedAddThread s i tid).tls_slots = s.tls_slots := by
  unfold schedAddThread
  exact tls_slots_setSched ..

theorem create_ok (s : KState) (entry prio : Nat) (pid : Int)
    (h1 : prio ≤ THREADPRIO_LOWEST) (h2 : pid ≤ THREADPROCESSORID_MAX)
    (h3 : entry ∈ s.valid_addrs) :
    create s entry prio pid = Except.ok (createdState s prio pid, s.next_thread_id,
      [Event.schedAddThread pid s.next_thread_id prio]) := by
  have hng : ¬ prio > THREADPRIO_LOWEST := by omega
  have hnp : ¬ pid > THREADPROCESSORID_MAX := by omega
  have hnv : ¬ entry ∉ s.valid_addrs := fun hc => hc h3
  unfold create
  rw [if_neg hng, if_neg hnp, if_neg hnv]

@[simp] theorem getThread_setTls (x : KState) (v : List (List Bool)) (k : Nat) :
    getThread { x with tls_slots := v } k = getThread x k := rfl

theorem schedCurrent_setTls (x : KState) (v : List (List Bool)) (i : Int) :
    schedCurrent { x with tls_slots := v } i = schedCurrent x i := by
  unfold schedCurrent getSched
  split_ifs <;> rfl

/-- The TLS address a successful `Create` assigns, as a function of the TLS
bitmap of the starting state. -/
def tlsAddrOf (s : KState) : Nat :=
  let free := getFreeThreadLocalSlot s.tls_slots
  let page := if free.2.2 then s.tls_slots.length else free.1
  let slot := if free.2.2 then 0 else free.2.1
  TLS_AREA_VADDR + page * PAGE_SIZE + slot * TLS_ENTRY_SIZE

theorem createdState_thread (s : KState) (prio : Nat) (pid : Int) :
    getThread (createdState s prio pid) s.next_thread_id =
      some { createThreadRecord prio pid s.next_thread_id with tls_address := tlsAddrOf s } := by
  by_cases halloc : (getFreeThreadLocalSlot s.tls_slots).2.2
  · simp only [createdState, tlsAddrOf, getThread_modifyThread_self, getThread_tlsSet,
      tls_slots_schedAddThread]
    simp only [halloc, if_true]
    rw [getThread_setTls, getThread_schedAddThread]
    simp [getThread, lookupTh]
  · simp only [createdState, tlsAddrOf, getThread_modifyThread_self, getThread_tlsSet,
      tls_slots_schedAddThread]
    simp only [halloc, Bool.false_eq_true, if_false]
    rw [getThread_schedAddThread]
    simp [getThread, lookupTh]

theorem createdState_schedCurrent (s : KState) (prio : Nat) (pid : Int) (i : Int) :
    schedCurrent (createdState s prio pid) i = schedCurrent s i := by
  by_cases halloc : (getFreeThreadLocalSlot s.tls_slots).2.2
  · simp only [createdState, schedCurrent_modifyThread, schedCurrent_tlsSet,
      tls_slots_schedAddThread]
    simp only [halloc, if_true]
    rw [schedCurrent_setTls, schedCurrent_schedAddThread]
    unfold schedCurrent getSched
    split_ifs <;> rfl
  · simp only [createdState, schedCurrent_modifyThread, schedCurrent_tlsSet,
      tls_slots_schedAddThread]
    simp only [halloc, Bool.false_eq_true, if_false]
    rw [schedCurrent_schedAddThread]
    unfold schedCurrent getSched
    split_ifs <;> rfl

/-- C4: a thread created with processor id `C` (hence ideal core `C` and
affinity mask `1 <<< C`), resumed while no thread is running on core `C`,
is always placed on core `C`: the ideal-core override takes precedence over
the free-core scan and the previous-processor fallback. -/
theorem claim_C4_create_resume_ideal (dbg : Bool) (s : KState) (entry prio : Nat)
    (C : Int) (h1 : prio ≤ THREADPRIO_LOWEST) (h2 : 0 ≤ C)
    (h3 : C ≤ THREADPROCESSORID_MAX) (h4 : entry ∈ s.valid_addrs)
    (h5 : schedCurrent s C = none) :
    ∃ s1 tid ev s2 tr,
      create s entry prio C = Except.ok (s1, tid, ev) ∧
      resumeFromWait dbg s1 tid = Except.ok (s2, tr) ∧
      (getThread s2 tid).map (fun th => th.processor_id) = some C ∧
      (getThread s2 tid).map (fun th => th.status) = some ThreadStatus.Ready := by
  have hgt := createdState_thread s prio C
  have hfree1 : schedCurrent (createdState s prio C) C = none := by
    rw [createdState_schedCurrent]
    exact h5
  have hC4 : C < 4 := by
    have hmax : THREADPROCESSORID_MAX = 3 := rfl
    omega
  obtain ⟨s2, tr, hres, hproc, hstat⟩ := resume_places_ideal_core dbg
    (createdState s prio C) s.next_thread_id _ hgt rfl
    (⟨fun hx => ThreadStatus.noConfusion hx, fun hx => ThreadStatus.noConfusion hx,
      fun hx => ThreadStatus.noConfusion hx⟩)
    h2 hC4 hfree1
  exact ⟨createdState s prio C, s.next_thread_id,
    [Event.schedAddThread C s.next_thread_id prio], s2, tr,
    create_ok s entry prio C h1 h3 h4, hres, hproc, hstat⟩

/-! Preservation of the wait-object table, and what the deregistration loop
of the wakeup callback guarantees. -/

@[simp] theorem objects_modifyThread (s : KState) (k : Nat) (f : Thread → Thread) :
    (modifyThread s k f).objects = s.objects := rfl

@[simp] theorem objects_setSched (s : KState) (i : Int) (sc : Sched) :
    (setSched s i sc).objects = s.objects := by
  unfold setSched
  split_ifs <;> rfl

@[simp] theorem objects_schedAddThread (s : KState) (i : Int) (tid : Nat) :
    (schedAddThread s i tid).objects = s.objects := by
  unfold schedAddThread
  exact objects_setSched ..

@[simp] theorem objects_schedRemoveThread (s : KState) (i : Int) (tid : Nat) :
    (schedRemoveThread s i tid).objects = s.objects := by
  unfold schedRemoveThread
  exact objects_setSched ..

@[simp] theorem objects_schedScheduleThread (s : KState) (i : Int) (tid prio : Nat) :
    (schedScheduleThread s i tid prio).objects = s.objects := by
  unfold schedScheduleThread
  exact objects_setSched ..

@[simp] theorem objects_schedUnscheduleThread (s : KState) (i : Int) (tid prio : Nat) :
    (schedUnscheduleThread s i tid prio).objects = s.objects := by
  unfold schedUnscheduleThread
  exact objects_setSched ..

@[simp] theorem objects_schedSetThreadPriority (s : KState) (i : Int) (tid prio : Nat) :
    (schedSetThreadPriority s i tid prio).objects = s.objects := by
  unfold schedSetThreadPriority
  exact objects_setSched ..

theorem getNextProcessorId_lt (s : KState) (mask : Nat) (i : Int)
    (h : getNextProcessorId s mask = some i) : 0 ≤ i ∧ i < 4 := by
  have hr : List.range NUM_CPU_CORES = [0, 1, 2, 3] := rfl
  unfold getNextProcessorId at h
  rw [hr] at h
  simp only [List.findSome?] at h
  repeat' split at h
  all_goals simp_all
  all_goals omega

/-- A thread blocked on synchronization objects whose wait-object list has
already been cleared resumes successfully (given in-range core fields),
ends up `Ready`, and neither its wait-object list nor the waiter tables are
touched by the placement. -/
theorem resumeFromWait_wait_ok (dbg : Bool) (s : KState) (tid : Nat) (t : Thread)
    (ht : getThread s tid = some t) (hwo : t.wait_objects = [])
    (hst : t.status = ThreadStatus.WaitSynchAny ∨ t.status = ThreadStatus.WaitSynchAll ∨
           t.status = ThreadStatus.WaitHLEEvent)
    (hpid4 : t.processor_id < 4) (hic4 : t.ideal_core < 4) :
    ∃ s2 tr, resumeFromWait dbg s tid = Except.ok (s2, tr) ∧
      (getThread s2 tid).map (fun th => th.status) = some ThreadStatus.Ready ∧
      (getThread s2 tid).map (fun th => th.wait_objects) = some t.wait_objects ∧
      s2.objects = s.objects := by
  have hresume : resumeFromWait dbg s tid =
      corePlacementResume (modifyThread s tid readyUpd) tid := by
    unfold resumeFromWait
    rw [ht]
    rcases hst with h | h | h <;> (simp [hwo, h]; try rfl)
  rw [hresume]
  have ht1 : getThread (modifyThread s tid readyUpd) tid = some (readyUpd t) := by
    rw [getThread_modifyThread_self, ht]
    rfl
  unfold corePlacementResume
  rw [ht1]
  simp only
  set cand1 := (match getNextProcessorId (modifyThread s tid readyUpd)
      (readyUpd t).affinity_mask with
    | none => (readyUpd t).processor_id
    | some i => i) with hcand
  set np := (if (readyUpd t).ideal_core ≠ -1 ∧
      schedCurrent (modifyThread s tid readyUpd) (readyUpd t).ideal_core = none
    then (readyUpd t).ideal_core else cand1) with hnp
  have hnp4 : np < 4 := by
    rw [hnp]
    split_ifs with hcond
    · exact hic4
    · rw [hcand]
      cases hsc : getNextProcessorId (modifyThread s tid readyUpd)
          (readyUpd t).affinity_mask with
      | none => exact hpid4
      | some j => exact (getNextProcessorId_lt _ _ _ hsc).2
  rw [if_pos hnp4]
  by_cases hmove : np ≠ (readyUpd t).processor_id
  · rw [if_pos hmove]
    refine ⟨_, _, rfl, ?_, ?_, ?_⟩ <;> simp [ht1, readyUpd]
  · rw [if_neg hmove]
    refine ⟨_, _, rfl, ?_, ?_, ?_⟩ <;> simp [ht1, readyUpd]

theorem objRemoveWaiting_not_mem (s : KState) (obj tid : Nat) :
    ∀ p ∈ (objRemoveWaiting s obj tid).objects, p.1 = obj → tid ∉ p.2 := by
  intro p hp heq
  unfold objRemoveWaiting at hp
  simp only [List.mem_map] at hp
  obtain ⟨q, hq, hfq⟩ := hp
  by_cases hqo : q.1 = obj
  · rw [if_pos hqo] at hfq
    subst hfq
    simp [List.mem_filter]
  · rw [if_neg hqo] at hfq
    subst hfq
    exact absurd heq hqo

theorem objRemoveWaiting_pres (s : KState) (o2 tid obj : Nat)
    (h : ∀ p ∈ s.objects, p.1 = obj → tid ∉ p.2) :
    ∀ p ∈ (objRemoveWaiting s o2 tid).objects, p.1 = obj → tid ∉ p.2 := by
  intro p hp heq
  unfold objRemoveWaiting at hp
  simp only [List.mem_map] at hp
  obtain ⟨q, hq, hfq⟩ := hp
  by_cases hqo : q.1 = o2
  · rw [if_pos hqo] at hfq
    subst hfq
    simp [List.mem_filter]
  · rw [if_neg hqo] at hfq
    subst hfq
    exact h q hq heq

theorem foldObjRemove_pres (L : List Nat) (s : KState) (tid obj : Nat)
    (h : ∀ p ∈ s.objects, p.1 = obj → tid ∉ p.2) :
    ∀ p ∈ ((L.foldl (fun acc o => objRemoveWaiting acc o tid) s)).objects,
      p.1 = obj → tid ∉ p.2 := by
  induction L generalizing s with
  | nil => exact h
  | cons o rest ih =>
    simp only [List.foldl_cons]
    exact ih _ (objRemoveWaiting_pres _ _ _ _ h)

theorem foldObjRemove_removes (L : List Nat) (s : KState) (tid : Nat) :
    ∀ p ∈ ((L.foldl (fun acc o => objRemoveWaiting acc o tid) s)).objects,
      p.1 ∈ L → tid ∉ p.2 := by
  induction L generalizing s with
  | nil =>
    intro p _ hm
    cases hm
  | cons o rest ih =>
    intro p hp hm
    simp only [List.foldl_cons] at hp
    rcases List.mem_cons.mp hm with heq | hmem
    · exact foldObjRemove_pres rest _ tid o (objRemoveWaiting_not_mem s o tid) p hp heq
    · exact ih _ p hp hmem

/-- C9: a timed wakeup for a thread blocked on synchronization objects
first removes the thread from the waiter list of every object it waits on
and empties its `wait_objects` collection, then (and only then) invokes the
wakeup callback with the `Timeout` reason, and transitions the thread to
`Ready` via `ResumeFromWait` exactly when the callback, if present, does not
veto the resume. -/
theorem claim_C9_timeout_wakeup (fuel : Nat) (dbg : Bool) (s : KState) (tid : Nat)
    (t : Thread) (ht : getThread s tid = some t)
    (hst : t.status = ThreadStatus.WaitSynchAny ∨ t.status = ThreadStatus.WaitSynchAll ∨
           t.status = ThreadStatus.WaitHLEEvent)
    (hmx : t.mutex_wait_address = 0) (hcv : t.condvar_wait_address = 0)
    (hwh : t.wait_handle = 0) (harb : t.arb_wait_address = 0)
    (hpid4 : t.processor_id < 4) (hic4 : t.ideal_core < 4) :
    ∃ s2 tr tail,
      threadWakeupCallback fuel dbg s tid = Except.ok (s2, tr) ∧
      tr = (t.wait_objects.map (fun obj => Event.removeWaitingThread obj tid)) ++
        (match t.wakeup_callback with
         | some _ => [Event.invokeWakeupCallback WakeupReason.Timeout tid]
         | none => []) ++ tail ∧
      (getThread s2 tid).map (fun th => th.wait_objects) = some [] ∧
      (∀ p ∈ s2.objects, p.1 ∈ t.wait_objects → tid ∉ p.2) ∧
      ((getThread s2 tid).map (fun th => th.status) = some ThreadStatus.Ready ↔
        t.wakeup_callback ≠ some false) := by
  have hnr : t.status ≠ ThreadStatus.Ready := by
    rcases hst with h | h | h <;> (rw [h]; intro hx; cases hx)
  have hmutneg : ¬ (t.mutex_wait_address ≠ 0 ∨ t.condvar_wait_address ≠ 0 ∨
      t.wait_handle ≠ 0) := by
    simp [hmx, hcv, hwh]
  have htB : getThread (modifyThread
      (t.wait_objects.foldl (fun acc obj => objRemoveWaiting acc obj tid) s) tid
      (fun th => { th with wait_objects := [] })) tid =
      some { t with wait_objects := [] } := by
    rw [getThread_modifyThread_self, getThread_foldObjRemove, ht]
    rfl
  set sB := modifyThread
      (t.wait_objects.foldl (fun acc obj => objRemoveWaiting acc obj tid) s) tid
      (fun th => { th with wait_objects := [] }) with hsB
  have hobjB : ∀ p ∈ sB.objects, p.1 ∈ t.wait_objects → tid ∉ p.2 := by
    rw [hsB]
    simp only [objects_modifyThread]
    exact foldObjRemove_removes _ _ _
  unfold threadWakeupCallback
  rw [ht]
  simp only
  rw [if_pos hst, if_neg hmutneg]
  cases hcb : t.wakeup_callback with
  | none =>
    simp only
    unfold wakeupFinish
    rw [← hsB, htB]
    simp only
    have harbB : ¬ ({ t with wait_objects := ([] : List Nat) }.arb_wait_address ≠ 0) := by
      simp [harb]
    rw [if_neg harbB]
    simp only [if_true]
    obtain ⟨s2, tr2, hres, hstat, hwo2, hobj2⟩ := resumeFromWait_wait_ok dbg sB tid
      { t with wait_objects := [] } htB rfl (by rcases hst with h | h | h <;> simp [h])
      hpid4 hic4
    rw [hres]
    refine ⟨s2, _, tr2, rfl, by simp [hcb], ?_, ?_, ?_⟩
    · rw [hwo2]
    · intro p hp
      rw [hobj2] at hp
      exact hobjB p hp
    · rw [hstat]
      simp [hcb]
  | some b =>
    simp only
    unfold wakeupFinish
    rw [← hsB, htB]
    simp only
    have harbB : ¬ ({ t with wait_objects := ([] : List Nat) }.arb_wait_address ≠ 0) := by
      simp [harb]
    rw [if_neg harbB]
    cases b with
    | true =>
      simp only [if_true]
      obtain ⟨s2, tr2, hres, hstat, hwo2, hobj2⟩ := resumeFromWait_wait_ok dbg sB tid
        { t with wait_objects := [] } htB rfl (by rcases hst with h | h | h <;> simp [h])
        hpid4 hic4
      rw [hres]
      refine ⟨s2, _, tr2, rfl, by simp [hcb], ?_, ?_, ?_⟩
      · rw [hwo2]
      · intro p hp
        rw [hobj2] at hp
        exact hobjB p hp
      · rw [hstat]
        simp [hcb]
    | false =>
      simp only [if_false]
      refine ⟨sB, _, [], rfl, by simp [hcb], ?_, hobjB, ?_⟩
      · rw [htB]
        rfl
      · rw [htB]
        constructor
        · intro hx
          injection hx with hx2
          exact (hnr hx2).elim
        · intro hx
          exact absurd rfl hx

/-! Concrete states used to witness the claim theorems at specific inputs. -/

/-- An empty kernel state with one valid entry-point address. -/
def baseState : KState :=
  { threads := []
    sched0 := ⟨none, [], []⟩
    sched1 := ⟨none, [], []⟩
    sched2 := ⟨none, [], []⟩
    sched3 := ⟨none, [], []⟩
    tls_slots := []
    objects := []
    valid_addrs := [100]
    next_thread_id := 1 }

/-- State with a single `Ready` thread, for the duplicate-resume witness. -/
def sReady : KState :=
  { baseState with threads := [(1, chainThread 12 none [] ThreadStatus.Ready)] }

/-- State with a single `Dead` thread, for the invalid-resume theorems. -/
def sDead : KState :=
  { baseState with threads := [(1, chainThread 7 none [] ThreadStatus.Dead)] }

/-- State with a single `Ready` thread occupying TLS page 0 slot 0, for the
double-`Stop` theorems. -/
def sStop : KState :=
  { baseState with
    threads := [(1, chainThread 7 none [] ThreadStatus.Ready)]
    tls_slots := [[true, false, false, false, false, false, false, false]] }

/-- A thread blocked on two synchronization objects with a non-vetoing
wakeup callback, and the state containing it, for the timed-wakeup
witness. -/
def tWake : Thread :=
  { chainThread 10 none [] ThreadStatus.WaitSynchAny with
    wait_objects := [11, 12]
    wakeup_callback := some true }

def sWake : KState :=
  { baseState with
    threads := [(20, tWake)]
    objects := [(11, [20, 5]), (12, [20])] }

theorem claim_C1_witness :
    ((addMutexWaiter 2 (chainState 9 5 3) 2 3).toOption.bind
      (fun r => (getThread r.1 1).map (fun t => t.current_priority))) = some 5 := by
  obtain ⟨s1, e1, s2, e2, s3, e3, h1, h2, h3, _⟩ :=
    claim_C1_inheritance 9 5 3 0 (by decide) (by decide)
  rw [h1]
  exact h3

theorem claim_C2_witness :
    updatePriority 1 (chainState 30 20 10) 3 = (chainState 30 20 10, []) :=
  (claim_C2_updatePriority 0 (chainState 30 20 10) 3
    (chainThread 10 none [] ThreadStatus.WaitMutex) rfl).2.1 (by decide)

theorem claim_C4_witness :
    ∃ s1 tid ev s2 tr,
      create baseState 100 10 2 = Except.ok (s1, tid, ev) ∧
      resumeFromWait false s1 tid = Except.ok (s2, tr) ∧
      (getThread s2 tid).map (fun th => th.processor_id) = some 2 ∧
      (getThread s2 tid).map (fun th => th.status) = some ThreadStatus.Ready :=
  claim_C4_create_resume_ideal false baseState 100 10 2 (by decide) (by decide)
    (by decide) (by decide) (by decide)

theorem claim_C5_witness :
    resumeFromWait false sReady 1 = Except.ok (sReady, []) :=
  claim_C5_resume_ready_noop false sReady 1
    (chainThread 12 none [] ThreadStatus.Ready) rfl rfl rfl rfl

theorem claim_C6_witness :
    Event.tlsSlotReset 0 0 ∈ (stop (stop sStop 1).1 1).2 ∧
    (stop (stop sStop 1).1 1).1.tls_slots = (stop sStop 1).1.tls_slots := by
  have h := claim_C6_stop_twice sStop 1 (chainThread 7 none [] ThreadStatus.Ready) rfl
  exact ⟨h.2.1, h.2.2⟩

/-- C6 counterexample: the claim that a second `Stop` does not free the
TLS slot a second time fails: the second call records another TLS-slot reset for the
same page and slot. -/
theorem claim_C6_counterexample :
    Event.tlsSlotReset 0 0 ∈ (stop (stop sStop 1).1 1).2 ∧
    (stop sStop 1).2 ≠ (stop (stop sStop 1).1 1).2 := by
  constructor <;> decide

theorem claim_C7_witness :
    resumeFromWait true sDead 1 = Except.error () ∧
    resumeFromWait false sDead 1 = Except.ok (sDead, []) :=
  claim_C7_resume_dead_running sDead 1 (chainThread 7 none [] ThreadStatus.Dead)
    rfl rfl (Or.inr rfl)

/-- C7 counterexample: resuming a Dead thread with debug assertions compiled
out succeeds as a silent no-op; no fatal assertion fires, contradicting the
claim that the operation does not merely return without effect. -/
theorem claim_C7_counterexample :
    resumeFromWait false sDead 1 = Except.ok (sDead, []) ∧
    resumeFromWait false sDead 1 ≠ Except.error () := by
  constructor
  · rfl
  · intro h
    rw [show resumeFromWait false sDead 1 = Except.ok (sDead, []) from rfl] at h
    exact Except.noConfusion h

theorem claim_C8_witness :
    priorityInv (chainState 30 20 10) ∧
    priorityInv (updatePriority 2 (chainState 30 20 10) 2).1 := by
  have hinv : priorityInv (chainState 30 20 10) := by
    intro k t hk
    simp only [chainState, getThread, lookupTh] at hk
    split_ifs at hk <;> (cases hk) <;> decide
  exact ⟨hinv, (claim_C8_priority_invariant (chainState 30 20 10) 2 2 2 3 15).1 hinv⟩

theorem claim_C9_witness :
    ∃ s2 tr, threadWakeupCallback 3 false sWake 20 = Except.ok (s2, tr) ∧
      (getThread s2 20).map (fun th => th.status) = some ThreadStatus.Ready := by
  obtain ⟨s2, tr, tail, h1, _, _, _, h5⟩ :=
    claim_C9_timeout_wakeup 3 false sWake 20 tWake rfl (Or.inl rfl)
      rfl rfl rfl rfl (by decide) (by decide)
  exact ⟨s2, _, h1, h5.mpr (by decide)⟩

theorem claim_C10_witness :
    create baseState 100 64 0 = Except.error ResultCode.ERR_OUT_OF_RANGE ∧
    create baseState 100 10 4 = Except.error ResultCode.ERR_OUT_OF_RANGE_KERNEL ∧
    create baseState 999 10 0 = Except.error (ResultCode.raw (-1)) :=
  ⟨(claim_C10_create_errors baseState 100 64 0).1 (by decide),
   (claim_C10_create_errors baseState 100 10 4).2.1 (by decide) (by decide),
   (claim_C10_create_errors baseState 999 10 0).2.2 (by decide) (by decide)
     (by decide)⟩

end Kernel
